import Mathlib

/-!
Verification of the Morrigan device-management server against its
natural-language specification.

The definitions below are shallow embeddings of the JavaScript sources:

* `Morrigan.TokenGenerator`  — `src/modules/TokenGenerator.js`
* `Morrigan.Auth`            — `src/modules/auth.js`
* `Morrigan.WsCore`          — `src/unnamed/part_008` (the session manager)
* `Morrigan.Server`          — `src/server.js` (the `Morrigan` lifecycle class)

JavaScript peculiarities that matter to the properties (string truthiness,
`switch` fall-through, `for..in` iterating indices, unanchored regexes) are
embedded faithfully; external libraries (crypto, `jsonwebtoken`, JSON
serialization, MongoDB collections) are modelled at their interfaces, with
collections as lists in call order and a counter standing in for `uuidv4`
freshness.
-/

namespace Morrigan

namespace TokenGenerator

/-- A token verification record, as built in `TokenGenerator.newToken`:
`{id, subject, issuer, key, issued, expires}`.  Record ids (`uuidv4()`) are
modelled as naturals drawn from a freshness counter; instants are naturals. -/
structure TokenRecord where
  id : Nat
  subject : String
  issuer : String
  key : String
  issued : Nat
  expires : Nat
deriving Repr, DecidableEq

/-- Model of the compact signed token produced by
`jwt.sign(payload, privateKey, {algorithm, expiresIn, keyid})`: the header
carries `kid`, the payload carries `sub`, `iss`, `iat`, `exp` and an optional
`context`.  The signature is modelled by recording the signing key in
`sigKey`: `jwt.verify(token, key, ...)` succeeds exactly when `key` is the
public key paired with `sigKey` (the model represents a key pair by a single
shared handle, so this is string equality). -/
structure Jwt where
  kid : Nat
  sub : String
  iss : String
  iat : Nat
  exp : Nat
  context : Option String
  sigKey : String
deriving Repr, DecidableEq

/-- State of one `TokenGenerator` instance.  `tokenCollection` is `none` when
the generator was constructed without a MongoDB collection.  `nextUuid` and
`nextKey` are the freshness counters behind `uuidv4()` and
`Crypto.generateKeyPairSync`.  `keyUpdateInterval` records whether the
constructor installed a key-rotation interval (`keyLifetime > 0`). -/
structure Generator where
  id : String
  publicKey : String
  privateKey : String
  keyType : String
  tokenLifetime : Nat
  keyUpdateInterval : Bool
  tokenCollection : Option (List TokenRecord)
  nextUuid : Nat
  nextKey : Nat
deriving Repr, DecidableEq

/-- The `algorithm` class field of `TokenGenerator`: `algorithm = 'ES256'`. -/
def algorithm : String := "ES256"

/-- The `keyLength` class field of `TokenGenerator`: `keyLength = 1024`. -/
def keyLength : Nat := 1024

/-- The key type string passed to `Crypto.generateKeyPairSync` by
`TokenGenerator.generateKeys`: the source calls
`Crypto.generateKeyPairSync('dsa', { modulusLength: this.keyLength })`. -/
def generateKeysKeyType : String := "dsa"

/-- Node crypto key type required by a JWT signing algorithm: the `ES256`
algorithm (ECDSA using P-256 and SHA-256) requires an elliptic-curve (`'ec'`)
key pair. -/
def requiredKeyTypeFor (alg : String) : Option String :=
  if alg == "ES256" then some "ec" else none

/-- Embedding of `TokenGenerator.generateKeys`: generates a fresh key pair
(the two PEM exports are modelled by one fresh shared handle) of the type
named by `generateKeysKeyType`. -/
def generateKeys (g : Generator) : Generator :=
  { g with
    publicKey := "key" ++ toString g.nextKey
    privateKey := "key" ++ toString g.nextKey
    keyType := generateKeysKeyType
    nextKey := g.nextKey + 1 }

/-- Options accepted by `TokenGenerator.newToken`. -/
structure NewTokenOptions where
  tokenLifetime : Option Nat
  context : Option String
deriving Repr, DecidableEq

/-- MongoDB `replaceOne({id: i}, rec)`: replace the first document whose `id`
field equals `i`. -/
def replaceOneById : List TokenRecord → Nat → TokenRecord → List TokenRecord
  | [], _, _ => []
  | r :: rs, i, rec => if r.id == i then rec :: rs else r :: replaceOneById rs i rec

/-- The record-store update performed by `TokenGenerator.newToken`:
`findOne({subject})`, then `replaceOne({id: current.id}, rec)` if a record for
the subject exists, else `insertOne(rec)`. -/
def storeTokenRecord (coll : List TokenRecord) (subject : String)
    (rec : TokenRecord) : List TokenRecord :=
  match coll.find? (fun r => r.subject == subject) with
  | some currentTokenRecord => replaceOneById coll currentTokenRecord.id rec
  | none => coll ++ [rec]

/-- Embedding of `TokenGenerator.newToken(subject, options)` at instant `now`.
Builds the payload and the verification record, signs the token with the
current private key, stores the record (replacing any existing record for the
same `subject`, otherwise inserting), and regenerates the keys when no
key-update interval is installed.  Returns the updated generator, the record
and the token. -/
def newToken (g : Generator) (subject : String) (options : Option NewTokenOptions)
    (now : Nat) : Generator × TokenRecord × Jwt :=
  let duration := match options with
    | some o => o.tokenLifetime.getD g.tokenLifetime
    | none => g.tokenLifetime
  let context := match options with
    | some o => o.context
    | none => none
  let validTo := now + duration
  let tokenRecord : TokenRecord :=
    { id := g.nextUuid
      subject := subject
      issuer := g.id
      key := g.publicKey
      issued := now
      expires := validTo }
  let token : Jwt :=
    { kid := tokenRecord.id
      sub := subject
      iss := g.id
      iat := now
      exp := validTo
      context := context
      sigKey := g.privateKey }
  let g1 := { g with nextUuid := g.nextUuid + 1 }
  let g2 := match g1.tokenCollection with
    | some coll =>
      { g1 with tokenCollection := some (storeTokenRecord coll subject tokenRecord) }
    | none => g1
  let g3 := if !g2.keyUpdateInterval then generateKeys g2 else g2
  (g3, tokenRecord, token)

/-- Result of `TokenGenerator.verifyToken`. -/
inductive VerifyResult
  | success (subject : String) (context : Option String)
  | failure (status : String) (reason : String)
deriving Repr, DecidableEq

/-- Boolean discriminator: is this verification result a success whose subject
equals `sub`? -/
def VerifyResult.isSuccessWith (r : VerifyResult) (sub : String) : Bool :=
  match r with
  | .success s _ => s == sub
  | .failure _ _ => false

/-- Model of `jwt.verify(token, key, {issuer, subject})` at instant `now`:
the signature must match the key, the payload `iss` and `sub` must equal the
given issuer and subject, and the token must not be expired
(`jsonwebtoken` rejects once the clock reaches `exp`). -/
def jwtVerify (token : Jwt) (key issuer subject : String) (now : Nat) : Bool :=
  token.sigKey == key && token.iss == issuer && token.sub == subject && now < token.exp

/-- Second half of `TokenGenerator.verifyToken`, once the token record has
been looked up: the `!tokenRecord` check, the completeness check
`!(tokenRecord.key && tokenRecord.issuer && tokenRecord.subject)` (a JS
truthiness test, so an empty-string field makes the record "incomplete"),
the `jwt.verify` call, and the result assembly (`r.context` is set only when
`payload.context` is truthy). -/
def verifyRecord (token : Jwt) (tokenRecord? : Option TokenRecord)
    (now : Nat) : VerifyResult :=
  match tokenRecord? with
  | none => .failure "noRecordError" "No record found for the token."
  | some tokenRecord =>
    if !(tokenRecord.key != "" && tokenRecord.issuer != "" && tokenRecord.subject != "") then
      .failure "invalidRecordError" "Token record is incomplete."
    else if jwtVerify token tokenRecord.key tokenRecord.issuer tokenRecord.subject now then
      .success tokenRecord.subject
        (match token.context with
         | some c => if c == "" then none else some c
         | none => none)
    else
      .failure "invalidTokenError" "Token does not match key on record or is expired."

/-- Embedding of `TokenGenerator.verifyToken(token, options)` at instant
`now`; `record?` is the optional `options.record`.  The record is fetched
from `options.record` if given, else from the collection by the token
header's `kid` (`findOne({id: header.kid})`), else verification fails with
`noRecordError`. -/
def verifyToken (g : Generator) (token : Jwt) (record? : Option TokenRecord)
    (now : Nat) : VerifyResult :=
  match record?, g.tokenCollection with
  | some r, _ => verifyRecord token (some r) now
  | none, some coll => verifyRecord token (coll.find? (fun r => r.id == token.kid)) now
  | none, none => .failure "noRecordError" "No record source available."

/-- Well-formedness of a generator state, as established by the constructor
and preserved by `newToken`: a record store is attached, every stored record
id was drawn from the freshness counter, the two key handles are the matching
pair produced by `generateKeys`, and the key and generator id are nonempty
(PEM exports and `uuidv4()` values are never empty strings). -/
def Generator.Wellformed (g : Generator) : Prop :=
  g.tokenCollection.isSome ∧
  (∀ r ∈ g.tokenCollection.getD [], r.id < g.nextUuid) ∧
  (g.tokenCollection.getD []).Pairwise (fun a b => a.id ≠ b.id) ∧
  g.publicKey = g.privateKey ∧
  g.publicKey ≠ "" ∧
  g.id ≠ ""

/-- A concrete freshly-constructed generator (id `"gen0"`, empty record
store, default 30-minute token lifetime, rotation interval installed). -/
def initGenerator : Generator :=
  { id := "gen0"
    publicKey := "key0"
    privateKey := "key0"
    keyType := generateKeysKeyType
    tokenLifetime := 30
    keyUpdateInterval := true
    tokenCollection := some []
    nextUuid := 0
    nextKey := 1 }

end TokenGenerator

namespace Auth

/-- A JavaScript value appearing as an element of a `functions` array. -/
inductive JsValue
  | vStr (s : String)
  | vNum (n : Int)
deriving Repr, DecidableEq

/-- The `functions` field of an identity-details object: absent (or falsy),
a truthy non-array value, or an array of values. -/
inductive FunctionsField
  | notArray
  | array (elems : List JsValue)
deriving Repr, DecidableEq

/-- Authentication details under `details.auth`; only the `type` field is
inspected by `validateIdentitySpec`, the rest is the provider's concern and
is carried opaquely (here: an optional password). -/
structure AuthDetails where
  type : Option String
  password : Option String
deriving Repr, DecidableEq

/-- The details object accepted by `validateIdentitySpec` / `setIdentity`. -/
structure IdentityDetails where
  name : Option String
  auth : Option AuthDetails
  functions : Option FunctionsField
deriving Repr, DecidableEq

/-- A stored identity record: `addIdentity` always persists `id`, `name`,
`authId` and `functions` (defaulting `functions` to `[]`). -/
structure Identity where
  id : String
  name : String
  authId : String
  functions : List JsValue
deriving Repr, DecidableEq

/-- A stored authentication record: a fresh uuid `id` plus the provider's
commit record, carried opaquely. -/
structure AuthRecord where
  id : String
  record : AuthDetails
deriving Repr, DecidableEq

/-- Result of an authentication provider's `validate(details)` call. -/
structure ProviderValidateResult where
  state : String
  reason : String
  cleanRecord : AuthDetails

/-- Result of an authentication provider's `commit(details)` call: a commit
record, a non-success result object, or a thrown exception. -/
inductive CommitResult
  | committed (commitRecord : AuthDetails)
  | failedCommit (state reason : String)
  | threw

/-- An authentication provider module; `validate` and `commit` may be absent
(the source checks `authType.validate` / `authType.commit` for truthiness
before calling them). -/
structure AuthProvider where
  validate : Option (AuthDetails → ProviderValidateResult)
  commit : Option (AuthDetails → CommitResult)

/-- JS truthiness of an optional string field: absent or empty is falsy. -/
def truthyStr : Option String → Bool
  | none => false
  | some s => s != ""

/-- One character of the class `[A-z0-9_\-.]` (note that the `A-z` range of
the source regex spans codepoints 65–122, so it also admits `[ \ ] ^ _ \x60`). -/
def identRegexChar (c : Char) : Bool :=
  ('A' ≤ c && c ≤ 'z') || ('0' ≤ c && c ≤ '9') || c == '_' || c == '-' || c == '.'

/-- JS `s.match(/[A-z0-9_\-.]+/)` is truthy: the regex is unanchored, so a
match exists exactly when some character of `s` lies in the class.  Both
`nameRegex` and `functionRegex` in the source are this same pattern. -/
def matchesIdentRegex (s : String) : Bool :=
  s.toList.any identRegexChar

/-- The sanitized record built up by `validateIdentitySpec`; a field is
`none` when the corresponding detail was absent (and so not validated). -/
structure CleanRecord where
  name : Option String
  auth : Option AuthDetails
  functions : Option (List JsValue)
deriving Repr, DecidableEq

/-- Result of `validateIdentitySpec`: an error object `{state, reason}` or a
pass carrying the clean record and the resolved auth provider (if any). -/
inductive ValidationResult
  | failed (state : String) (reason : String)
  | passed (cleanRecord : CleanRecord) (authType : Option AuthProvider)

/-- Options accepted by `validateIdentitySpec`. -/
structure ValidateOptions where
  newIdentity : Bool
  validFunctions : Option (List String)

/-- The name-validation stage of `validateIdentitySpec` (lines delimited by
"Start: Validate name"): requires a name for new identities, checks the
format regex, and checks presence/absence in the identity collection
(`newIdentity` requires the name unused, update requires it present). -/
def validateName (identityRecords : List Identity) (details : IdentityDetails)
    (options : ValidateOptions) : Except (String × String) (Option String) :=
  if options.newIdentity && !(truthyStr details.name) then
    .error ("requestError", "No user name specified.")
  else if truthyStr details.name && !(matchesIdentRegex (details.name.getD "")) then
    .error ("requestError", "Invalid name format (should match regex /[A-z0-9_\\-.]+/).")
  else
    match details.name, truthyStr details.name with
    | some name, true =>
      match identityRecords.find? (fun i => i.name == name) with
      | some _ =>
        if options.newIdentity then
          .error ("requestError", "Identity name already in use.")
        else .ok (some name)
      | none =>
        if options.newIdentity then .ok (some name)
        else .error ("requestError", "No such user.")
    | _, _ => .ok none

/-- The authentication-validation stage of `validateIdentitySpec`: requires
auth details for new identities, requires a truthy `auth.type` naming a
registered provider exposing `validate` and `commit`, and delegates to the
provider's `validate`.  Returns the clean auth record and the provider. -/
def validateAuth (authTypes : String → Option AuthProvider)
    (details : IdentityDetails) (options : ValidateOptions) :
    Except (String × String) (Option AuthDetails × Option AuthProvider) :=
  match details.auth with
  | none =>
    if options.newIdentity then
      .error ("requestError", "No athentication details specified for new identity.")
    else .ok (none, none)
  | some auth =>
    if !(truthyStr auth.type) then
      .error ("requestError", "No authentication type specified.")
    else
      let typeName := auth.type.getD ""
      match authTypes typeName with
      | none =>
        .error ("serverConfigurationError",
          "Invalid authentication type specified for user: " ++ typeName)
      | some authType =>
        match authType.validate with
        | none =>
          .error ("serverConfigurationError",
            "No validation function specified for authentication type: " ++ typeName)
        | some validate =>
          match authType.commit with
          | none =>
            .error ("serverConfigurationError",
              "No commit function specified for authentication type: " ++ typeName)
          | some _ =>
            let r := validate auth
            if r.state != "success" then .error (r.state, r.reason)
            else .ok (some r.cleanRecord, some authType)

/-- The functions-validation stage of `validateIdentitySpec`.  The source
iterates with `for (let f in details.functions)`, and `for..in` on an array
yields the index strings `"0"`, `"1"`, …, not the elements; `typeof f !==
'string'` is therefore always false, the regex test runs on the index
strings (digit strings always pass), and the `validFunctions` membership
test is also applied to the index strings. -/
def validateFunctions (details : IdentityDetails) (options : ValidateOptions) :
    Except (String × String) (Option (List JsValue)) :=
  match details.functions with
  | none => .ok none
  | some .notArray => .error ("requestError", "Functions not specified as an array.")
  | some (.array fns) =>
    let idxStrs := (List.range fns.length).map (fun i => toString i)
    let incorrectFormat := idxStrs.filter (fun f => !(matchesIdentRegex f))
    if incorrectFormat.length > 0 then
      .error ("requestError",
        "Incorrectly formatted function names (should match regex /[A-z0-9_\\-.]+/): "
          ++ String.intercalate ", " incorrectFormat)
    else
      match options.validFunctions with
      | some valid =>
        let invalidFunctions := idxStrs.filter (fun f => !(valid.contains f))
        if invalidFunctions.length > 0 then
          .error ("requestError",
            "Invalid functions named: " ++ String.intercalate ", " invalidFunctions)
        else .ok (some fns)
      | none => .ok (some fns)

/-- Embedding of `validateIdentitySpec(details, options)` from
`src/modules/auth.js`: the three validation stages in source order, composed
into `{state:'success', pass, cleanRecord, authType}` on success. -/
def validateIdentitySpec (identityRecords : List Identity)
    (authTypes : String → Option AuthProvider)
    (details : IdentityDetails) (options : ValidateOptions) : ValidationResult :=
  match validateName identityRecords details options with
  | .error (s, r) => .failed s r
  | .ok cleanName =>
    match validateAuth authTypes details options with
    | .error (s, r) => .failed s r
    | .ok (cleanAuth, authType) =>
      match validateFunctions details options with
      | .error (s, r) => .failed s r
      | .ok cleanFns => .passed ⟨cleanName, cleanAuth, cleanFns⟩ authType

/-- Options accepted by `setIdentity`. -/
structure SetIdentityOptions where
  allowSecurityEdit : Bool
deriving Repr, DecidableEq

/-- Result of `setIdentity`: a result object, or a thrown JS error (e.g.
`Object.keys(null)` when the identity does not exist, or calling `commit` on
an undefined provider). -/
inductive SetIdentityResult
  | failedSet (state reason : String)
  | successSet (identity : Identity)
  | jsError

/-- Errors local to the field-application loop of `setIdentity`. -/
inductive SetFieldErr
  | resultErr (state reason : String)
  | jsThrow

/-- MongoDB `Object.keys` of a stored identity document: Mongo's `_id` plus
the fields `addIdentity` writes. -/
def identityFields : List String := ["_id", "id", "name", "authId", "functions"]

/-- The keys of the clean record, in insertion order (`Object.keys(record)`
where `record = r.cleanRecord`). -/
def updateFieldsOf (c : CleanRecord) : List String :=
  (if c.name.isSome then ["name"] else []) ++
  (if c.auth.isSome then ["auth"] else []) ++
  (if c.functions.isSome then ["functions"] else [])

/-- One iteration of the `switch(fieldName)` in `setIdentity`.  JavaScript
switch semantics matter here:

* `case 'auth'` commits a fresh auth record and rebinds `authId`, then
  `break`s;
* `case 'functions'` assigns only under `options.allowSecurityEdit`, but has
  no `break`, so control falls through into `default`, which assigns
  `newIdentity[fieldName] = r.cleanRecord[fieldName]` whenever the stored
  identity has that key (a stored identity always has `functions`), and then
  into `case 'id'`, whose `break` ends the switch;
* any other field (only `name` can occur) is handled by `default`;
* `case 'id'` and `case '_id'` do nothing. -/
def applyUpdateField (authTypes : String → Option AuthProvider)
    (clean : CleanRecord) (allowSecurityEdit : Bool) (freshAuthId : String)
    (st : Identity × Option AuthRecord) (fieldName : String) :
    Except SetFieldErr (Identity × Option AuthRecord) :=
  let newIdentity := st.1
  let newAuth := st.2
  if fieldName = "auth" then
    match clean.auth with
    | none => .error .jsThrow
    | some cleanAuth =>
      match (cleanAuth.type.getD "") |> authTypes with
      | none => .error .jsThrow
      | some authType =>
        match authType.commit with
        | none => .error .jsThrow
        | some commit =>
          match commit cleanAuth with
          | .committed commitRecord =>
            .ok ({ newIdentity with authId := freshAuthId },
                 some ⟨freshAuthId, commitRecord⟩)
          | .failedCommit _ _ =>
            .error (.resultErr "serverAuthCommitFailed"
              "Failed to commit the new authentication details.")
          | .threw => .error .jsThrow
  else if fieldName = "functions" then
    let n1 := if allowSecurityEdit then
        { newIdentity with functions := clean.functions.getD newIdentity.functions }
      else newIdentity
    let n2 := if identityFields.contains "functions" then
        { n1 with functions := clean.functions.getD n1.functions }
      else n1
    .ok (n2, newAuth)
  else if fieldName = "id" ∨ fieldName = "_id" then
    .ok (newIdentity, newAuth)
  else
    let n := if identityFields.contains fieldName then
        (if fieldName = "name" then
          { newIdentity with name := clean.name.getD newIdentity.name }
        else newIdentity)
      else newIdentity
    .ok (n, newAuth)

/-- MongoDB `replaceOne({id: i}, rec)` on the identity collection. -/
def replaceIdentityById : List Identity → String → Identity → List Identity
  | [], _, _ => []
  | r :: rs, i, rec =>
    if r.id == i then rec :: rs else r :: replaceIdentityById rs i rec

/-- MongoDB `replaceOne({id: i}, rec)` on the authentication collection. -/
def replaceAuthById : List AuthRecord → String → AuthRecord → List AuthRecord
  | [], _, _ => []
  | r :: rs, i, rec =>
    if r.id == i then rec :: rs else r :: replaceAuthById rs i rec

/-- Embedding of `setIdentity(identityId, details, options)` from
`src/modules/auth.js`: validate (without `newIdentity`), fetch the identity
by id (`Object.keys(null)` throws when absent), apply the per-field switch,
then commit: replace the auth record keyed by the old `authId` when a new
one was committed, and replace the identity record.  `freshAuthId` stands in
for the `uuidv4()` drawn for a committed auth record.  Returns the result
together with the updated identity and authentication collections. -/
def setIdentity (identityRecords : List Identity)
    (authenticationRecords : List AuthRecord)
    (authTypes : String → Option AuthProvider) (identityId : String)
    (details : IdentityDetails) (options : SetIdentityOptions)
    (freshAuthId : String) :
    SetIdentityResult × List Identity × List AuthRecord :=
  match validateIdentitySpec identityRecords authTypes details ⟨false, none⟩ with
  | .failed s r => (.failedSet s r, identityRecords, authenticationRecords)
  | .passed clean _ =>
    match identityRecords.find? (fun i => i.id == identityId) with
    | none => (.jsError, identityRecords, authenticationRecords)
    | some identity =>
      match (updateFieldsOf clean).foldlM
          (applyUpdateField authTypes clean options.allowSecurityEdit freshAuthId)
          (identity, none) with
      | .error (.resultErr s r) => (.failedSet s r, identityRecords, authenticationRecords)
      | .error .jsThrow => (.jsError, identityRecords, authenticationRecords)
      | .ok (newIdentity, newAuth) =>
        let authenticationRecords' := match newAuth with
          | some na => replaceAuthById authenticationRecords identity.authId na
          | none => authenticationRecords
        let identityRecords' := replaceIdentityById identityRecords identity.id newIdentity
        (.successSet newIdentity, identityRecords', authenticationRecords')

/-- The token payload carried by an operator bearer token (`newToken` in
`auth.js` signs `{id, name, iat, exp, functions?}`). -/
structure TokenPayload where
  id : String
  name : String
  iat : Nat
  exp : Nat
  functions : Option (List String)
deriving Repr, DecidableEq

/-- An HTTP request as seen by the middleware: the `Authorization` header
and the `req.authenticated` property. -/
structure Request where
  authorization : Option String
  authenticated : Option TokenPayload
deriving Repr, DecidableEq

/-- JS `auth.match(/^(?<type>bearer) (?<token>.+)/)`: the header must start
with lowercase `bearer` and a space, and the token capture is the maximal
nonempty run of non-line-terminator characters after the space (`.` does not
match line terminators; the regex is not `$`-anchored). -/
def matchBearer (auth : String) : Option String :=
  if auth.startsWith "bearer " then
    let t := (auth.drop 7).takeWhile (fun c => c != '\n' && c != '\r')
    if t != "" then some t else none
  else none

/-- Outcome of running the middleware on one request: the (possibly
augmented) request, how many times `next()` was called, and the response
status sent, if any. -/
structure MwResult where
  req : Request
  nextCalls : Nat
  responseStatus : Option Nat
deriving Repr, DecidableEq

/-- Embedding of `mw_verify` from `src/modules/auth.js`: if an
`Authorization` header is present, matches the bearer pattern and, when the
token verifies (`verifyTokenFn` models `verifyToken`, i.e. `jwt.verify`
against the module secret, returning the payload or null), sets
`req.authenticated` to the payload; in every case it falls through to a
single `next()` call and never writes a response. -/
def mw_verify (verifyTokenFn : String → Option TokenPayload) (req : Request) :
    MwResult :=
  let req' := match req.authorization with
    | some auth =>
      match matchBearer auth with
      | some token =>
        match verifyTokenFn token with
        | some p => { req with authenticated := some p }
        | none => req
      | none => req
    | none => req
  { req := req', nextCalls := 1, responseStatus := none }

end Auth

namespace WsCore

/-- A connection record as created by `ep_wsConnect` in `src/unnamed/part_008`:
`{id, clientAddress, authenticated, isAlive, open}` completed on acceptance
with `clientId` and `serverId`.  Record ids (`uuidv4()`) are modelled as
naturals drawn from a freshness counter; the JS field `open` is a Lean
keyword and is embedded as `isOpen`. -/
structure Conn where
  id : Nat
  clientId : String
  isAlive : Bool
  isOpen : Bool
  serverId : String
deriving Repr, DecidableEq

/-- A client registry record (`clients.js`): the shared in-memory object on
which the session manager stores the mutual reference `client.connectionId`
at acceptance time. -/
structure Client where
  id : String
  connectionId : Option Nat
deriving Repr, DecidableEq

/-- In-memory state of the session manager: the module-level `connections`
array of part_008, the client registry (`clients.js`'s `clients` array), the
uuid freshness counter, and this server's instance id
(`coreEnv.serverInfo.id`). -/
structure SMState where
  connections : List Conn
  clients : List Client
  nextId : Nat
  serverId : String
deriving Repr, DecidableEq

/-- `connections.splice(i, 1)` at `findIndex(o => o.id === id)`: remove the
first record with the given id (no-op when absent). -/
def removeFirstConnById : List Conn → Nat → List Conn
  | [], _ => []
  | c :: cs, i => if c.id == i then cs else c :: removeFirstConnById cs i

/-- The acceptance tail of `ep_wsConnect` (lines 98–104): the record gets
`clientId` and `serverId`, the client's `connectionId` is set to the new
record's id, the socket is registered and the record pushed. -/
def acceptConnection (s : SMState) (cid : String) : SMState :=
  { s with
    connections := s.connections ++ [⟨s.nextId, cid, true, true, s.serverId⟩],
    clients := s.clients.map (fun c =>
      if c.id == cid then { c with connectionId := some s.nextId } else c),
    nextId := s.nextId + 1 }

/-- The post-authentication part of `ep_wsConnect` (lines 82–104): if the
client record points at an existing connection that is still alive, the new
connection is aborted (before any registration); a stale (non-alive)
existing record is spliced out; then the new connection is accepted. -/
def wsConnectAuthed (s : SMState) (cid : String) (client : Client) : SMState :=
  match client.connectionId with
  | some oldId =>
    match s.connections.find? (fun o => o.id == oldId) with
    | some c =>
      if c.isAlive then s
      else acceptConnection
        { s with connections := removeFirstConnById s.connections oldId } cid
    | none => acceptConnection s cid
  | none => acceptConnection s cid

/-- Embedding of `ep_wsConnect` up to and including registration.  `authOk`
is the outcome of `coreEnv.providers.client.verifyToken` on the presented
token; on failure the handler cleans up before the record was pushed, so
the state is unchanged.  The client object handed over by `verifyToken` is
the shared registry record (`getClient`); a missing registry record makes
the JS handler throw before any registration, leaving the state
unchanged. -/
def ep_wsConnect (s : SMState) (cid : String) (authOk : Bool) : SMState :=
  if !authOk then s
  else
    match s.clients.find? (fun c => c.id == cid) with
    | none => s
    | some client => wsConnectAuthed s cid client

/-- Embedding of the `ws.on('close')` cleanup: the record is marked dead and
spliced out of `connections` (net effect on the list: removal). -/
def ep_wsClose (s : SMState) (connId : Nat) : SMState :=
  { s with connections := removeFirstConnById s.connections connId }

/-- Embedding of one heartbeat-monitor tick: `record.isAlive = false` (after
logging a miss when it was already false) and a ping is sent. -/
def heartbeatTick (s : SMState) (connId : Nat) : SMState :=
  { s with connections := s.connections.map (fun c =>
      if c.id == connId then { c with isAlive := false } else c) }

/-- Embedding of the `ws.on('pong')` handler: `record.isAlive = true`. -/
def ep_wsPong (s : SMState) (connId : Nat) : SMState :=
  { s with connections := s.connections.map (fun c =>
      if c.id == connId then { c with isAlive := true } else c) }

/-- Embedding of `provisionClient` (`clients.js`) restricted to its effect
on the registry: an absent client is created (with no connection reference);
an existing one only has its token replaced. -/
def provisionClient (s : SMState) (cid : String) : SMState :=
  match s.clients.find? (fun c => c.id == cid) with
  | some _ => s
  | none => { s with clients := s.clients ++ [⟨cid, none⟩] }

/-- The events that mutate the session-manager state. -/
inductive SMEvent
  | provision (clientId : String)
  | wsConnect (clientId : String) (authOk : Bool)
  | wsClose (connId : Nat)
  | hbTick (connId : Nat)
  | wsPong (connId : Nat)
deriving Repr, DecidableEq

/-- One step of the session manager. -/
def step (s : SMState) (e : SMEvent) : SMState :=
  match e with
  | .provision cid => provisionClient s cid
  | .wsConnect cid ok => ep_wsConnect s cid ok
  | .wsClose i => ep_wsClose s i
  | .hbTick i => heartbeatTick s i
  | .wsPong i => ep_wsPong s i

/-- The initial session-manager state: empty `connections` and `clients`. -/
def initState (serverId : String) : SMState := ⟨[], [], 0, serverId⟩

/-- The state reached from the initial state by a sequence of events. -/
def run (serverId : String) (events : List SMEvent) : SMState :=
  events.foldl step (initState serverId)

/-- Structural invariant of the session manager: connection ids are fresh
and distinct, every connection's client exists in the registry and points
back at it, and registry ids are unique. -/
def WF (s : SMState) : Prop :=
  (∀ c ∈ s.connections, c.id < s.nextId) ∧
  s.connections.Pairwise (fun a b => a.id ≠ b.id) ∧
  (∀ conn ∈ s.connections, ∃ cl ∈ s.clients,
    cl.id = conn.clientId ∧ cl.connectionId = some conn.id) ∧
  (∀ c1 ∈ s.clients, ∀ c2 ∈ s.clients, c1.id = c2.id → c1 = c2)

/-- A message passed to `send`: a JS string or some other JS value carried
with its JSON serialization. -/
inductive JsMessage
  | jsStr (s : String)
  | jsObj (serialized : String)
deriving Repr, DecidableEq

/-- Model of `JSON.stringify` restricted to what `send` passes it: a string
serializes to itself in quotes (escaping elided — the modelled inputs hold
no characters needing escapes), a non-string value is carried with its
serialization. -/
def JSONStringify : JsMessage → String
  | .jsStr str => "\"" ++ str ++ "\""
  | .jsObj serialized => serialized

/-- Result object of `send`. -/
inductive SendStatus
  | successSend
  | failedSend (reason : String)
deriving Repr, DecidableEq

/-- Embedding of `send(connectionId, message)` from `src/unnamed/part_008`
(lines 12–35): look up the connection; fail when absent; fail when
`!r.isAlive || !r.open`; otherwise write.  In `switch(typeof(message))` the
`'string'` case assigns `msg = message` but has no `break`, so control falls
through to `default` and the written payload is always
`JSON.stringify(message)`.  There is no check of the record's `serverId`.
Returns the result object and the payload written to the socket, if any. -/
def send (s : SMState) (connectionId : Nat) (message : JsMessage) :
    SendStatus × Option String :=
  match s.connections.find? (fun o => o.id == connectionId) with
  | none => (.failedSend "No such connection.", none)
  | some r =>
    if !r.isAlive || !r.isOpen then
      (.failedSend "Connection closed or client not live.", none)
    else
      (.successSend, some (JSONStringify message))

/-- A frame received on the socket, after the `JSON.parse` attempt: JSON
that does not parse, a parsed object whose `type` field is absent, or a
parsed object with a `type` string and a body. -/
inductive Frame
  | badJson
  | noTypeField
  | typed (type : String) (body : String)
deriving Repr, DecidableEq

/-- One character of the class `[A-z0-9\-_]` (the provider part of a
message type). -/
def typeChar (c : Char) : Bool :=
  ('A' ≤ c && c ≤ 'z') || ('0' ≤ c && c ≤ '9') || c == '-' || c == '_'

/-- One character of the class `[A-z0-9\-_.]` (the message part). -/
def typeCharDot (c : Char) : Bool :=
  typeChar c || c == '.'

/-- Split a character list at its first `'.'`. -/
def splitFirstDot : List Char → Option (List Char × List Char)
  | [] => none
  | c :: rest =>
    if c == '.' then some ([], rest)
    else match splitFirstDot rest with
      | some (p, m) => some (c :: p, m)
      | none => none

/-- JS `msg.type.match(/^(?<provider>[A-z0-9\-_]+)\.(?<message>[A-z0-9\-_.]+)$/)`:
the provider class admits no dot, so a match splits the string at its first
dot; both parts must be nonempty and drawn from their character classes. -/
def matchTypeRegex (s : String) : Option (String × String) :=
  match splitFirstDot s.toList with
  | none => none
  | some (p, m) =>
    if !p.isEmpty && p.all typeChar && !m.isEmpty && m.all typeCharDot then
      some (String.mk p, String.mk m)
    else none

/-- Outcome of a provider message handler `h(msg, ws, record, coreEnv)`:
either a normal return (the handler may have updated the session record
through its reference) or a thrown exception, which is what the session
manager observes and catches. -/
inductive HandlerOutcome
  | handled (newRecord : Conn)
  | threw

/-- A session-message provider: a map from message-type suffix to handler
(`coreEnv.providers[p].messages[m]`). -/
structure Provider where
  messages : String → Option (String → Conn → HandlerOutcome)

/-- Outcome of processing one frame: the session record afterwards, whether
the session manager closed the socket, and the log lines written. -/
structure MessageOutcome where
  record : Conn
  closedSocket : Bool
  logs : List String

/-- Embedding of the `ws.on('message')` handler of `ep_wsConnect` (part_008
lines 111–150): un-parseable JSON, a missing/falsy `type`, a malformed
type, an unknown provider, an unknown message and a throwing handler are
each only logged; the session manager never closes the socket or touches
the record. -/
def ws_onMessage (providers : String → Option Provider) (frame : Frame)
    (record : Conn) : MessageOutcome :=
  match frame with
  | .badJson => ⟨record, false, ["Invalid JSON received"]⟩
  | .noTypeField => ⟨record, false, ["Message without type declaration"]⟩
  | .typed type body =>
    if type == "" then ⟨record, false, ["Message without type declaration"]⟩
    else
      match matchTypeRegex type with
      | none => ⟨record, false, ["Message with invalid message type"]⟩
      | some (prov, msgName) =>
        match providers prov with
        | none => ⟨record, false, ["No provider for the message type"]⟩
        | some p =>
          match p.messages msgName with
          | none => ⟨record, false, ["No handler defined for the message type"]⟩
          | some h =>
            match h body record with
            | .handled newRecord => ⟨newRecord, false, []⟩
            | .threw => ⟨record, false, ["Exception thrown while handling message"]⟩

/-- Boolean discriminator: does this frame fall in one of the error cases
(un-parseable JSON, missing/falsy `type`, malformed type, unknown provider,
unknown message, handler exception)? -/
def errorFrame (providers : String → Option Provider) (frame : Frame)
    (record : Conn) : Bool :=
  match frame with
  | .badJson => true
  | .noTypeField => true
  | .typed type body =>
    if type == "" then true
    else
      match matchTypeRegex type with
      | none => true
      | some (prov, msgName) =>
        match providers prov with
        | none => true
        | some p =>
          match p.messages msgName with
          | none => true
          | some h =>
            match h body record with
            | .handled _ => false
            | .threw => true

/-- A concrete session record used by witnesses and counterexamples. -/
def exampleConn : Conn := ⟨0, "c1", true, true, "serverB"⟩

/-- A concrete session-manager state whose single live connection belongs
to another server instance (`serverB` ≠ `serverA`). -/
def exampleSendState : SMState :=
  ⟨[exampleConn], [⟨"c1", some 0⟩], 1, "serverA"⟩

end WsCore

namespace Server

/-- The server states of `src/server.js` (`serverStates`). -/
inductive SState
  | errorState
  | instanced
  | initializing
  | initialized
  | starting
  | starting_connected
  | started
  | ready
  | stopping
  | stopped
deriving Repr, DecidableEq

/-- The numeric value of each server state in `serverStates`. -/
def SState.val : SState → Int
  | .errorState => -1
  | .instanced => 0
  | .initializing => 1
  | .initialized => 2
  | .starting => 3
  | .starting_connected => 4
  | .started => 5
  | .ready => 6
  | .stopping => 7
  | .stopped => 8

/-- The per-server liveness row (`_serverRecord`), restricted to the fields
`stop` touches. -/
structure InstanceRecord where
  live : Bool
  stopReason : Option String
  checkInTime : Nat
deriving Repr, DecidableEq

/-- State of one `Morrigan` server instance as far as `stop` observes it:
`_state`, `_serverRecord`, and the log of component names whose
`onShutdown` hook has been invoked in this lifetime. -/
structure MorriganState where
  state : SState
  serverRecord : Option InstanceRecord
  shutdownLog : List String
deriving Repr, DecidableEq

/-- Embedding of `Morrigan.stop(stopReason)` (`src/server.js` lines
566–608): when `_state !== serverStates.ready` the method only invokes the
callback and returns — nothing changes.  From `READY` it moves to
`STOPPING`, invokes every loaded component's `onShutdown` (appended to the
log), closes the listener, finalizes the instance record with
`live = false`, the stop reason and a fresh `checkInTime`, and ends in
`STOPPED`. -/
def stop (components : List String) (s : MorriganState) (stopReason : String)
    (now : Nat) : MorriganState :=
  if s.state ≠ SState.ready then s
  else
    { state := SState.stopped,
      serverRecord := s.serverRecord.map (fun _ =>
        ⟨false, some stopReason, now⟩),
      shutdownLog := s.shutdownLog ++ components }

/-- One `stop(reason)` call with its completion instant. -/
structure StopCall where
  reason : String
  time : Nat
deriving Repr, DecidableEq

/-- A sequence of `stop` calls applied in order. -/
def stopSeq (components : List String) (s : MorriganState)
    (calls : List StopCall) : MorriganState :=
  calls.foldl (fun st c => stop components st c.reason c.time) s

end Server

namespace TokenGenerator

theorem replaceOneById_subset {coll : List TokenRecord} {i : Nat}
    {rec r : TokenRecord} (h : r ∈ replaceOneById coll i rec) :
    r = rec ∨ r ∈ coll := by
  induction coll with
  | nil => simp [replaceOneById] at h
  | cons a as ih =>
    simp only [replaceOneById] at h
    split at h
    · rcases List.mem_cons.mp h with rfl | h
      · exact Or.inl rfl
      · exact Or.inr (List.mem_cons_of_mem _ h)
    · rcases List.mem_cons.mp h with rfl | h
      · exact Or.inr (List.mem_cons_self _ _)
      · rcases ih h with h' | h'
        · exact Or.inl h'
        · exact Or.inr (List.mem_cons_of_mem _ h')

theorem storeTokenRecord_subset {coll : List TokenRecord} {sub : String}
    {rec r : TokenRecord} (h : r ∈ storeTokenRecord coll sub rec) :
    r = rec ∨ r ∈ coll := by
  unfold storeTokenRecord at h
  split at h
  · exact replaceOneById_subset h
  · rcases List.mem_append.mp h with h | h
    · exact Or.inr h
    · exact Or.inl (List.mem_singleton.mp h)

theorem replaceOneById_append {l1 : List TokenRecord} (cur : TokenRecord)
    {l2 : List TokenRecord} {i : Nat} {rec : TokenRecord}
    (h1 : ∀ r ∈ l1, r.id ≠ i) (hcur : cur.id = i) :
    replaceOneById (l1 ++ cur :: l2) i rec = l1 ++ rec :: l2 := by
  induction l1 with
  | nil => simp [replaceOneById, hcur]
  | cons a as ih =>
    have ha : a.id ≠ i := h1 a (List.mem_cons_self a as)
    simp only [List.cons_append, replaceOneById, beq_iff_eq, if_neg ha]
    show a :: replaceOneById (as ++ cur :: l2) i rec = a :: (as ++ rec :: l2)
    rw [ih (fun r hr => h1 r (List.mem_cons_of_mem _ hr))]

theorem find?_decomp {p : TokenRecord → Bool} :
    ∀ {coll : List TokenRecord} {cur : TokenRecord}, coll.find? p = some cur →
      ∃ l1 l2, coll = l1 ++ cur :: l2 ∧ (∀ r ∈ l1, p r = false) ∧ p cur = true := by
  intro coll
  induction coll with
  | nil => intro cur h; simp [List.find?] at h
  | cons a as ih =>
    intro cur h
    cases hpa : p a with
    | true =>
      rw [List.find?_cons_of_pos _ hpa] at h
      obtain rfl : a = cur := by injection h
      exact ⟨[], as, rfl, by simp, hpa⟩
    | false =>
      rw [List.find?_cons_of_neg _ (by simp [hpa])] at h
      obtain ⟨l1, l2, rfl, h1, h2⟩ := ih h
      exact ⟨a :: l1, l2, rfl, by
        intro r hr
        rcases List.mem_cons.mp hr with rfl | hr
        · exact hpa
        · exact h1 r hr, h2⟩

theorem find?_middle {L1 : List TokenRecord} {rec : TokenRecord}
    {L2 : List TokenRecord} {p : TokenRecord → Bool}
    (h1 : ∀ r ∈ L1, p r = false) (hr : p rec = true) :
    (L1 ++ rec :: L2).find? p = some rec := by
  induction L1 with
  | nil => simpa [List.find?] using List.find?_cons_of_pos L2 hr
  | cons a as ih =>
    have ha : p a = false := h1 a (List.mem_cons_self a as)
    simp only [List.cons_append]
    rw [List.find?_cons_of_neg _ (by simp [ha])]
    exact ih (fun r hr' => h1 r (List.mem_cons_of_mem _ hr'))

theorem find?_none_of_all {L : List TokenRecord} {p : TokenRecord → Bool}
    (h : ∀ r ∈ L, p r = false) : L.find? p = none :=
  List.find?_eq_none.mpr (fun x hx => by simp [h x hx])

theorem countP_middle {L1 : List TokenRecord} {rec : TokenRecord}
    {L2 : List TokenRecord} {p : TokenRecord → Bool}
    (h1 : ∀ r ∈ L1, p r = false) (h2 : ∀ r ∈ L2, p r = false) (hr : p rec = true) :
    (L1 ++ rec :: L2).countP p = 1 := by
  rw [List.countP_append, List.countP_cons_of_pos _ _ hr,
      List.countP_eq_zero.mpr (fun r h => by simp [h1 r h]),
      List.countP_eq_zero.mpr (fun r h => by simp [h2 r h])]

/-- Decomposition of the record-store update of `newToken`: storing a fresh
record for `subject` yields a list of the form `L1 ++ rec :: L2` where `L1`
holds no record for the subject and both sides come from the old store. -/
theorem storeTokenRecord_decomp {coll : List TokenRecord} {sub : String}
    {rec : TokenRecord}
    (hpw : coll.Pairwise (fun a b => a.id ≠ b.id))
    (hfresh : ∀ r ∈ coll, r.id < rec.id) :
    ∃ L1 L2,
      storeTokenRecord coll sub rec = L1 ++ rec :: L2 ∧
      (∀ r ∈ L1, r ∈ coll) ∧ (∀ r ∈ L2, r ∈ coll) ∧
      (∀ r ∈ L1, (r.subject == sub) = false) ∧
      (coll = L1 ++ L2 ∨ ∃ cur, coll = L1 ++ cur :: L2) ∧
      (coll.countP (fun r => r.subject == sub) ≤ 1 →
        ∀ r ∈ L2, (r.subject == sub) = false) := by
  unfold storeTokenRecord
  cases hfind : coll.find? (fun r => r.subject == sub) with
  | none =>
    refine ⟨coll, [], by simp, fun r hr => hr, by simp, ?_, Or.inl (by simp), by simp⟩
    intro r hr
    have := List.find?_eq_none.mp hfind r hr
    simpa using this
  | some cur =>
    obtain ⟨l1, l2, rfl, h1, h2⟩ := find?_decomp hfind
    have hids : ∀ r ∈ l1, r.id ≠ cur.id := by
      intro r hr
      have := (List.pairwise_append.mp hpw).2.2 r hr cur (List.mem_cons_self _ _)
      exact this
    refine ⟨l1, l2, replaceOneById_append cur hids rfl, ?_, ?_, h1,
      Or.inr ⟨cur, rfl⟩, ?_⟩
    · intro r hr; exact List.mem_append.mpr (Or.inl hr)
    · intro r hr; exact List.mem_append.mpr (Or.inr (List.mem_cons_of_mem _ hr))
    · intro hcount r hr
      rw [List.countP_append,
          List.countP_cons_of_pos (fun r => r.subject == sub) l2 h2] at hcount
      have hz : l2.countP (fun r => r.subject == sub) = 0 := by omega
      have := List.countP_eq_zero.mp hz r hr
      simpa using this

/-- Unfolding of `newToken` with no options when a record collection is
attached. -/
theorem newToken_none_eq (g : Generator) (sub : String) (now : Nat)
    (coll : List TokenRecord) (hc : g.tokenCollection = some coll) :
    newToken g sub none now =
      (let record : TokenRecord :=
        ⟨g.nextUuid, sub, g.id, g.publicKey, now, now + g.tokenLifetime⟩
       let g2 : Generator :=
         { g with
            nextUuid := g.nextUuid + 1,
            tokenCollection := some (storeTokenRecord coll sub record) }
       (if !g2.keyUpdateInterval then generateKeys g2 else g2,
        record,
        ⟨g.nextUuid, sub, g.id, now, now + g.tokenLifetime, none, g.privateKey⟩)) := by
  obtain ⟨gid, pub, priv, kt, tl, kui, tc, nu, nk⟩ := g
  dsimp only at hc ⊢
  subst hc
  cases kui <;> rfl

/-- The token lifetime configured on the generator is untouched by
`newToken`. -/
theorem newToken_fst_tokenLifetime (g : Generator) (sub : String)
    (options : Option NewTokenOptions) (now : Nat) :
    (newToken g sub options now).1.tokenLifetime = g.tokenLifetime := by
  obtain ⟨gid, pub, priv, kt, tl, kui, tc, nu, nk⟩ := g
  cases tc <;> cases kui <;> rfl

/-- Unfolding of `verifyToken` without an `options.record` when a record
collection is attached. -/
theorem verifyToken_none_eq (g : Generator) (token : Jwt) (now : Nat)
    (coll : List TokenRecord) (hc : g.tokenCollection = some coll) :
    verifyToken g token none now
      = verifyRecord token (coll.find? (fun r => r.id == token.kid)) now := by
  obtain ⟨gid, pub, priv, kt, tl, kui, tc, nu, nk⟩ := g
  dsimp only at hc
  subst hc
  rfl

/-- Storing a fresh record preserves distinctness of record ids. -/
theorem storeTokenRecord_pairwise {coll : List TokenRecord} {sub : String}
    {rec : TokenRecord}
    (hpw : coll.Pairwise (fun a b => a.id ≠ b.id))
    (hfresh : ∀ r ∈ coll, r.id < rec.id) :
    (storeTokenRecord coll sub rec).Pairwise (fun a b => a.id ≠ b.id) := by
  obtain ⟨L1, L2, hst, hm1, hm2, _, hshape, _⟩ := storeTokenRecord_decomp hpw hfresh
  rw [hst]
  rw [List.pairwise_append]
  have hPW : L1.Pairwise (fun a b => a.id ≠ b.id) ∧
      L2.Pairwise (fun a b => a.id ≠ b.id) ∧
      ∀ a ∈ L1, ∀ b ∈ L2, a.id ≠ b.id := by
    rcases hshape with hsh | ⟨cur, hsh⟩
    · subst hsh
      obtain ⟨p1, p2, p3⟩ := List.pairwise_append.mp hpw
      exact ⟨p1, p2, p3⟩
    · subst hsh
      obtain ⟨p1, p2, p3⟩ := List.pairwise_append.mp hpw
      exact ⟨p1, (List.pairwise_cons.mp p2).2,
        fun a ha b hb => p3 a ha b (List.mem_cons_of_mem _ hb)⟩
  refine ⟨hPW.1, ?_, ?_⟩
  · rw [List.pairwise_cons]
    exact ⟨fun b hb => (Nat.ne_of_lt (hfresh b (hm2 b hb))).symm, hPW.2.1⟩
  · intro a ha b hb
    rcases List.mem_cons.mp hb with rfl | hb
    · exact Nat.ne_of_lt (hfresh a (hm1 a ha))
    · exact hPW.2.2 a ha b hb

/-- One `newToken` call preserves generator well-formedness. -/
theorem newToken_wellformed (g : Generator) (sub : String) (now : Nat)
    (hwf : g.Wellformed) : (newToken g sub none now).1.Wellformed := by
  obtain ⟨hsome, hfresh, hpw, hkeys, hkey, hid⟩ := hwf
  obtain ⟨coll, hc⟩ := Option.isSome_iff_exists.mp hsome
  obtain ⟨gid, pub, priv, kt, tl, kui, tc, nu, nk⟩ := g
  dsimp only at hc hfresh hpw hkeys hkey hid ⊢
  subst hc
  simp only [Option.getD_some] at hfresh hpw
  have hfresh' : ∀ r ∈ coll,
      r.id < (⟨nu, sub, gid, pub, now, now + tl⟩ : TokenRecord).id := hfresh
  have hmono : ∀ r ∈ storeTokenRecord coll sub ⟨nu, sub, gid, pub, now, now + tl⟩,
      r.id < nu + 1 := by
    intro r hr
    rcases storeTokenRecord_subset hr with rfl | hr'
    · exact Nat.lt_succ_self _
    · exact Nat.lt_succ_of_lt (hfresh r hr')
  cases kui
  · refine ⟨rfl, hmono, storeTokenRecord_pairwise hpw hfresh', rfl, ?_, hid⟩
    show ("key" ++ toString nk) ≠ ""
    intro h
    have h2 := congrArg String.length h
    simp at h2
    exact absurd h2.1 (by decide)
  · exact ⟨rfl, hmono, storeTokenRecord_pairwise hpw hfresh', hkeys, hkey, hid⟩

/-- The token returned by `newToken` with no options, in terms of the
generator's fields. -/
theorem newToken_token (g : Generator) (sub : String) (now : Nat) :
    (newToken g sub none now).2.2
      = ⟨g.nextUuid, sub, g.id, now, now + g.tokenLifetime, none, g.privateKey⟩ := by
  obtain ⟨gid, pub, priv, kt, tl, kui, tc, nu, nk⟩ := g
  cases tc <;> cases kui <;> rfl

/-- The verification record returned by `newToken` with no options, in terms
of the generator's fields. -/
theorem newToken_record (g : Generator) (sub : String) (now : Nat) :
    (newToken g sub none now).2.1
      = ⟨g.nextUuid, sub, g.id, g.publicKey, now, now + g.tokenLifetime⟩ := by
  obtain ⟨gid, pub, priv, kt, tl, kui, tc, nu, nk⟩ := g
  cases tc <;> cases kui <;> rfl

/-- The collection attached after `newToken` is the old collection with the
new record stored. -/
theorem newToken_fst_tokenCollection (g : Generator) (sub : String) (now : Nat)
    (coll : List TokenRecord) (hc : g.tokenCollection = some coll) :
    (newToken g sub none now).1.tokenCollection
      = some (storeTokenRecord coll sub (newToken g sub none now).2.1) := by
  obtain ⟨gid, pub, priv, kt, tl, kui, tc, nu, nk⟩ := g
  dsimp only at hc
  subst hc
  cases kui <;> rfl

/-- The uuid freshness counter advances by one on each `newToken` call. -/
theorem newToken_fst_nextUuid (g : Generator) (sub : String) (now : Nat) :
    (newToken g sub none now).1.nextUuid = g.nextUuid + 1 := by
  obtain ⟨gid, pub, priv, kt, tl, kui, tc, nu, nk⟩ := g
  cases tc <;> cases kui <;> rfl

/-- Issue-then-verify round trip, shared by the re-issue analysis: verifying
a token straight after issuing it (no store mutation in between) succeeds
with the issued subject, provided the generator is well-formed, the token
lifetime is positive and the subject is a nonempty string (an empty subject
fails the JS truthiness check on the stored record). -/
theorem issue_then_verify (g : Generator) (sub : String) (now : Nat)
    (hwf : g.Wellformed) (hsub : sub ≠ "") (hlife : 0 < g.tokenLifetime) :
    verifyToken (newToken g sub none now).1 (newToken g sub none now).2.2 none now
      = .success sub none := by
  obtain ⟨hsome, hfresh, hpw, hkeys, hkey, hid⟩ := hwf
  obtain ⟨coll, hc⟩ := Option.isSome_iff_exists.mp hsome
  rw [hc] at hfresh hpw
  simp only [Option.getD_some] at hfresh hpw
  obtain ⟨gid, pub, priv, kt, tl, kui, tc, nu, nk⟩ := g
  dsimp only at hc hfresh hpw hkeys hkey hid hlife hsub ⊢
  subst hc
  subst hkeys
  have hfresh2 : ∀ r ∈ coll,
      r.id < (⟨nu, sub, gid, pub, now, now + tl⟩ : TokenRecord).id := hfresh
  obtain ⟨L1, L2, hst, hm1, hm2, hn1, hshape, hcond⟩ :=
    storeTokenRecord_decomp hpw hfresh2
  have h1' : ∀ r ∈ L1, (r.id == nu) = false := by
    intro r hrr
    have := hfresh r (hm1 r hrr)
    simp [Nat.ne_of_lt this]
  cases kui
  all_goals {
    rw [verifyToken_none_eq _ _ _ _ (rfl :
      (_ : Generator).tokenCollection = some (storeTokenRecord coll sub
        ⟨nu, sub, gid, pub, now, now + tl⟩))]
    rw [newToken_token]
    dsimp only
    rw [hst]
    rw [show ((L1 ++ (⟨nu, sub, gid, pub, now, now + tl⟩ : TokenRecord) :: L2).find?
          (fun r => r.id == nu)) = some ⟨nu, sub, gid, pub, now, now + tl⟩ from
        find?_middle h1' (by simp)]
    simp [verifyRecord, jwtVerify, hkey, hid, hsub, hlife]
  }

/-- C2 (counterexample).  The claim quantifies over every subject, but for
the empty-string subject the stored verification record's `subject` field is
falsy in JS, so `verifyToken` reports `invalidRecordError` rather than a
success carrying the subject: issuing for `""` on a fresh generator and
verifying the very token just issued is not a success. -/
theorem c2_counterexample_empty_subject :
    (verifyToken (newToken initGenerator "" none 0).1
        (newToken initGenerator "" none 0).2.2 none 0
      = .failure "invalidRecordError" "Token record is incomplete.") ∧
    ((verifyToken (newToken initGenerator "" none 0).1
        (newToken initGenerator "" none 0).2.2 none 0).isSuccessWith "" = false) :=
  ⟨rfl, rfl⟩

/-- C2 (amended): for every well-formed generator state, every instant and
every nonempty subject string, issuing a token with `newToken(sub)` and
verifying that exact token with `verifyToken` (the stored verification
record unchanged in between) returns a success whose `subject` equals
`sub`. -/
theorem c2_issue_verify_roundtrip (g : Generator) (sub : String) (now : Nat)
    (hwf : g.Wellformed) (hsub : sub ≠ "") (hlife : 0 < g.tokenLifetime) :
    verifyToken (newToken g sub none now).1 (newToken g sub none now).2.2 none now
      = .success sub none :=
  issue_then_verify g sub now hwf hsub hlife

/-- C3 (counterexample).  For the empty-string subject the sequence
`newToken(""); newToken("")` leaves a record whose `subject` field is falsy,
so verifying the second token yields `invalidRecordError` where the claim
requires success. -/
theorem c3_counterexample_empty_subject :
    (verifyToken (newToken (newToken initGenerator "" none 0).1 "" none 0).1
        (newToken (newToken initGenerator "" none 0).1 "" none 0).2.2 none 0
      = .failure "invalidRecordError" "Token record is incomplete.") ∧
    ((verifyToken (newToken (newToken initGenerator "" none 0).1 "" none 0).1
        (newToken (newToken initGenerator "" none 0).1 "" none 0).2.2
        none 0).isSuccessWith "" = false) :=
  ⟨rfl, rfl⟩

/-- C3 (amended): for every well-formed generator holding at most one record
for the nonempty subject `sub`, after `newToken(sub); newToken(sub)` exactly
one verification record for `sub` exists (the second issuance replaced the
first record), verifying the first token fails with `noRecordError`, and
verifying the second token succeeds. -/
theorem c3_reissue_revokes_previous (g : Generator) (sub : String) (now : Nat)
    (hwf : g.Wellformed) (hsub : sub ≠ "") (hlife : 0 < g.tokenLifetime)
    (hcount : (g.tokenCollection.getD []).countP (fun r => r.subject == sub) ≤ 1) :
    (((newToken (newToken g sub none now).1 sub none now).1.tokenCollection.getD
        []).countP (fun r => r.subject == sub) = 1) ∧
    (verifyToken (newToken (newToken g sub none now).1 sub none now).1
        (newToken g sub none now).2.2 none now
      = .failure "noRecordError" "No record found for the token.") ∧
    (verifyToken (newToken (newToken g sub none now).1 sub none now).1
        (newToken (newToken g sub none now).1 sub none now).2.2 none now
      = .success sub none) := by
  obtain ⟨hsome, hfresh, hpw, hkeys, hkey, hid⟩ := hwf
  obtain ⟨coll, hc⟩ := Option.isSome_iff_exists.mp hsome
  rw [hc] at hfresh hpw hcount
  simp only [Option.getD_some] at hfresh hpw hcount
  have hfresh2 : ∀ r ∈ coll,
      r.id < (⟨g.nextUuid, sub, g.id, g.publicKey, now, now + g.tokenLifetime⟩ :
        TokenRecord).id := hfresh
  obtain ⟨L1, L2, hst, hm1, hm2, hn1, hshape, hcond⟩ :=
    storeTokenRecord_decomp hpw hfresh2
  have hL2 := hcond hcount
  -- collection after the first issuance
  have hA1 := newToken_fst_tokenCollection g sub now coll hc
  rw [newToken_record, hst] at hA1
  -- collection after the second issuance
  have hA2 := newToken_fst_tokenCollection (newToken g sub none now).1 sub now _ hA1
  rw [newToken_record] at hA2
  have hid1 : ∀ r ∈ L1, r.id ≠
      (⟨g.nextUuid, sub, g.id, g.publicKey, now, now + g.tokenLifetime⟩ :
        TokenRecord).id := by
    intro r hr
    exact Nat.ne_of_lt (hfresh r (hm1 r hr))
  have hstore2 : storeTokenRecord
      (L1 ++ (⟨g.nextUuid, sub, g.id, g.publicKey, now, now + g.tokenLifetime⟩ :
        TokenRecord) :: L2) sub
      ⟨(newToken g sub none now).1.nextUuid, sub, (newToken g sub none now).1.id,
        (newToken g sub none now).1.publicKey, now,
        now + (newToken g sub none now).1.tokenLifetime⟩
      = L1 ++ (⟨(newToken g sub none now).1.nextUuid, sub,
          (newToken g sub none now).1.id, (newToken g sub none now).1.publicKey,
          now, now + (newToken g sub none now).1.tokenLifetime⟩ :
            TokenRecord) :: L2 := by
    unfold storeTokenRecord
    rw [find?_middle hn1 (by simp)]
    exact replaceOneById_append _ hid1 rfl
  rw [hstore2] at hA2
  refine ⟨?_, ?_, ?_⟩
  · rw [hA2]
    simp only [Option.getD_some]
    exact countP_middle hn1 hL2 (by simp)
  · rw [verifyToken_none_eq _ _ _ _ hA2, newToken_token]
    dsimp only
    rw [find?_none_of_all ?hall]
    case hall =>
      intro r hr
      rcases List.mem_append.mp hr with hr | hr
      · have := hfresh r (hm1 r hr)
        simp [Nat.ne_of_lt this]
      · rcases List.mem_cons.mp hr with rfl | hr
        · simp [newToken_fst_nextUuid]
        · have := hfresh r (hm2 r hr)
          simp [Nat.ne_of_lt this]
    rfl
  · exact issue_then_verify (newToken g sub none now).1 sub now
      (newToken_wellformed g sub now
        ⟨hsome, by rw [hc]; simpa using hfresh, by rw [hc]; simpa using hpw,
          hkeys, hkey, hid⟩)
      hsub (by rw [newToken_fst_tokenLifetime]; exact hlife)

/-- Witness for C2 at a concrete generator, subject and instant. -/
theorem c2_issue_verify_roundtrip_witness :
    verifyToken (newToken initGenerator "client1" none 5).1
        (newToken initGenerator "client1" none 5).2.2 none 5
      = .success "client1" none :=
  c2_issue_verify_roundtrip initGenerator "client1" 5
    ⟨rfl, by simp [initGenerator], List.Pairwise.nil, rfl, by decide, by decide⟩
    (by decide) (by decide)

/-- Witness for C3 at a concrete generator, subject and instant. -/
theorem c3_reissue_revokes_previous_witness :
    (((newToken (newToken initGenerator "client2" none 7).1 "client2" none
        7).1.tokenCollection.getD []).countP (fun r => r.subject == "client2") = 1) ∧
    (verifyToken (newToken (newToken initGenerator "client2" none 7).1 "client2"
          none 7).1
        (newToken initGenerator "client2" none 7).2.2 none 7
      = .failure "noRecordError" "No record found for the token.") ∧
    (verifyToken (newToken (newToken initGenerator "client2" none 7).1 "client2"
          none 7).1
        (newToken (newToken initGenerator "client2" none 7).1 "client2" none
          7).2.2 none 7
      = .success "client2" none) :=
  c3_reissue_revokes_previous initGenerator "client2" 7
    ⟨rfl, by simp [initGenerator], List.Pairwise.nil, rfl, by decide, by decide⟩
    (by decide) (by decide) (by simp [initGenerator])

/-- C8: the key pair produced by `generateKeys` is a DSA key pair
(`Crypto.generateKeyPairSync('dsa', ...)`), while the generator signs with
`algorithm = 'ES256'`, which requires an ECDSA P-256 (`'ec'`) key pair — the
generated keys are not of the type the signing algorithm needs. -/
theorem c8_generateKeys_dsa_incompatible_es256 (g : Generator) :
    (generateKeys g).keyType = "dsa" ∧
    algorithm = "ES256" ∧
    requiredKeyTypeFor algorithm = some "ec" ∧
    (generateKeys g).keyType ≠ "ec" :=
  ⟨rfl, rfl, rfl, by show ("dsa" : String) ≠ "ec"; decide⟩

end TokenGenerator

namespace Auth

/-- C1: the claim fails on the code.  `case 'functions'` in `setIdentity`
has no `break`, so even with `allowSecurityEdit` false the update falls
through to `default`, which assigns `functions` because a stored identity
always has that key.  Evaluated at a concrete identity whose functions are
`["user.basic"]` and an update `{functions: ["identity.create"]}` with
`allowSecurityEdit` false: the call succeeds and the stored identity's
functions become `["identity.create"]` — a self-edit can escalate
privileges. -/
theorem c1_setIdentity_changes_functions_without_allowSecurityEdit :
    (setIdentity [⟨"u1", "alice", "a1", [.vStr "user.basic"]⟩]
        [⟨"a1", ⟨none, none⟩⟩] (fun _ => none) "u1"
        ⟨none, none, some (.array [.vStr "identity.create"])⟩ ⟨false⟩ "fresh1"
      = (.successSet ⟨"u1", "alice", "a1", [.vStr "identity.create"]⟩,
         [⟨"u1", "alice", "a1", [.vStr "identity.create"]⟩],
         [⟨"a1", ⟨none, none⟩⟩])) ∧
    ([JsValue.vStr "identity.create"] ≠ [JsValue.vStr "user.basic"]) :=
  ⟨rfl, by decide⟩

/-- C9: the claim fails on the code.  `for (let f in details.functions)`
iterates the array's index strings, not its elements, so (first conjunct) a
functions array containing the non-string element `42` passes the format
check and is copied verbatim into the clean record, and (second conjunct) a
functions array whose every element is listed in `validFunctions` is
nevertheless rejected with `requestError`, because the membership test is
applied to the index string `"0"`. -/
theorem c9_validateIdentitySpec_checks_indices_not_elements :
    (validateIdentitySpec [] (fun _ => none)
        ⟨none, none, some (.array [.vNum 42])⟩ ⟨false, none⟩
      = .passed ⟨none, none, some [.vNum 42]⟩ none) ∧
    (validateIdentitySpec [] (fun _ => none)
        ⟨none, none, some (.array [.vStr "identity.create"])⟩
        ⟨false, some ["identity.create"]⟩
      = .failed "requestError" "Invalid functions named: 0") :=
  ⟨rfl, rfl⟩

/-- C10: `mw_verify` always calls `next()` exactly once and never writes a
response; it leaves the request unchanged except that `req.authenticated` is
set to the token payload exactly when the `Authorization` header matches the
lowercase-`bearer` pattern and the captured token verifies. -/
theorem c10_mw_verify_never_rejects (verifyTokenFn : String → Option TokenPayload)
    (req : Request) :
    ((mw_verify verifyTokenFn req).nextCalls = 1) ∧
    ((mw_verify verifyTokenFn req).responseStatus = none) ∧
    ((mw_verify verifyTokenFn req).req.authorization = req.authorization) ∧
    ((mw_verify verifyTokenFn req).req.authenticated =
      match req.authorization with
      | some auth =>
        match matchBearer auth with
        | some token =>
          match verifyTokenFn token with
          | some p => some p
          | none => req.authenticated
        | none => req.authenticated
      | none => req.authenticated) := by
  obtain ⟨a, authed⟩ := req
  cases a with
  | none => exact ⟨rfl, rfl, rfl, rfl⟩
  | some auth =>
    cases hm : matchBearer auth with
    | none => exact ⟨rfl, rfl, by simp [mw_verify, hm], by simp [mw_verify, hm]⟩
    | some token =>
      cases hv : verifyTokenFn token with
      | none => exact ⟨rfl, rfl, by simp [mw_verify, hm, hv], by simp [mw_verify, hm, hv]⟩
      | some p => exact ⟨rfl, rfl, by simp [mw_verify, hm, hv], by simp [mw_verify, hm, hv]⟩

end Auth

namespace WsCore

theorem eq_of_pairwise_ne_id {l : List Conn}
    (hpw : l.Pairwise (fun a b => a.id ≠ b.id)) :
    ∀ {c1 : Conn}, c1 ∈ l → ∀ {c2 : Conn}, c2 ∈ l → c1.id = c2.id → c1 = c2 := by
  induction l with
  | nil =>
    intro c1 h
    exact absurd h (List.not_mem_nil c1)
  | cons a as ih =>
    intro c1 h1 c2 h2 heq
    rcases List.mem_cons.mp h1 with rfl | h1'
    · rcases List.mem_cons.mp h2 with rfl | h2'
      · rfl
      · exact absurd heq ((List.pairwise_cons.mp hpw).1 c2 h2')
    · rcases List.mem_cons.mp h2 with rfl | h2'
      · exact absurd heq.symm ((List.pairwise_cons.mp hpw).1 c1 h1')
      · exact ih (List.pairwise_cons.mp hpw).2 h1' h2' heq

theorem removeFirstConnById_sublist (l : List Conn) (i : Nat) :
    (removeFirstConnById l i).Sublist l := by
  induction l with
  | nil => simp [removeFirstConnById]
  | cons a as ih =>
    simp only [removeFirstConnById]
    split
    · exact List.sublist_cons_self a as
    · exact ih.cons₂ a

theorem mem_of_mem_removeFirstConnById {l : List Conn} {i : Nat} {c : Conn}
    (h : c ∈ removeFirstConnById l i) : c ∈ l :=
  (removeFirstConnById_sublist l i).subset h

theorem removeFirstConnById_id_ne {l : List Conn} {i : Nat}
    (hpw : l.Pairwise (fun a b => a.id ≠ b.id)) :
    ∀ c ∈ removeFirstConnById l i, c.id ≠ i := by
  induction l with
  | nil =>
    intro c h
    simp [removeFirstConnById] at h
  | cons a as ih =>
    intro c h
    simp only [removeFirstConnById] at h
    by_cases ha : (a.id == i) = true
    · rw [if_pos ha] at h
      have hai : a.id = i := by simpa using ha
      have hne := (List.pairwise_cons.mp hpw).1 c h
      rw [hai] at hne
      exact fun hc => hne hc.symm
    · rw [if_neg ha] at h
      rcases List.mem_cons.mp h with rfl | h
      · simpa using ha
      · exact ih (List.pairwise_cons.mp hpw).2 c h

theorem countP_le_one_of_unique_id {l : List Conn} {p : Conn → Bool}
    (hpw : l.Pairwise (fun a b => a.id ≠ b.id))
    (hp : ∀ c1 ∈ l, ∀ c2 ∈ l, p c1 = true → p c2 = true → c1.id = c2.id) :
    l.countP p ≤ 1 := by
  induction l with
  | nil => simp
  | cons a as ih =>
    by_cases hpa : p a = true
    · rw [List.countP_cons_of_pos p as hpa]
      have hz : as.countP p = 0 := by
        apply List.countP_eq_zero.mpr
        intro c hc hpc
        have hco := hp a (List.mem_cons_self a as) c (List.mem_cons_of_mem a hc) hpa hpc
        exact (List.pairwise_cons.mp hpw).1 c hc hco
      omega
    · rw [List.countP_cons_of_neg p as hpa]
      exact ih (List.pairwise_cons.mp hpw).2
        (fun c1 hm1 c2 hm2 => hp c1 (List.mem_cons_of_mem a hm1) c2 (List.mem_cons_of_mem a hm2))

theorem clientUpd_id (cid : String) (n : Nat) (c : Client) :
    (if c.id == cid then { c with connectionId := some n } else c).id = c.id := by
  split <;> rfl

/-- Accepting a connection preserves the invariant when the client is
registered and no current connection belongs to it. -/
theorem wf_acceptConnection {s : SMState} {cid : String}
    (hwf : WF s)
    (hex : ∃ cl ∈ s.clients, cl.id = cid)
    (hnone : ∀ conn ∈ s.connections, conn.clientId ≠ cid) :
    WF (acceptConnection s cid) := by
  obtain ⟨h1, h2, h3, h4⟩ := hwf
  obtain ⟨cl0, hcl0, hcl0id⟩ := hex
  refine ⟨?_, ?_, ?_, ?_⟩
  · intro c hc
    rcases List.mem_append.mp hc with hc | hc
    · exact Nat.lt_succ_of_lt (h1 c hc)
    · rw [List.mem_singleton.mp hc]
      exact Nat.lt_succ_self _
  · refine List.pairwise_append.mpr ⟨h2, List.pairwise_singleton _ _, ?_⟩
    intro a ha b hb
    rw [List.mem_singleton.mp hb]
    exact Nat.ne_of_lt (h1 a ha)
  · intro conn hconn
    rcases List.mem_append.mp hconn with hconn | hconn
    · obtain ⟨cl, hclmem, hclid, hclconn⟩ := h3 conn hconn
      have hne : (cl.id == cid) = false := by
        have : cl.id ≠ cid := by
          rw [hclid]
          exact hnone conn hconn
        simpa using this
      have heq : (fun c => if c.id == cid then { c with connectionId := some s.nextId }
          else c) cl = cl := by
        simp only [hne]
        rfl
      exact ⟨cl, heq ▸ List.mem_map_of_mem _ hclmem, hclid, hclconn⟩
    · rw [List.mem_singleton.mp hconn]
      have hcond : (cl0.id == cid) = true := by simpa using hcl0id
      have heq : (fun c => if c.id == cid then { c with connectionId := some s.nextId }
          else c) cl0 = { cl0 with connectionId := some s.nextId } := by
        simp only [hcond]
        rfl
      exact ⟨{ cl0 with connectionId := some s.nextId },
        heq ▸ List.mem_map_of_mem _ hcl0, hcl0id, rfl⟩
  · intro c1 hm1 c2 hm2 heq
    obtain ⟨a1, ha1, rfl⟩ := List.mem_map.mp hm1
    obtain ⟨a2, ha2, rfl⟩ := List.mem_map.mp hm2
    have hid : a1.id = a2.id := by
      rw [clientUpd_id cid s.nextId a1, clientUpd_id cid s.nextId a2] at heq
      exact heq
    rw [h4 a1 ha1 a2 ha2 hid]

/-- Removing a connection record preserves the invariant. -/
theorem wf_remove {s : SMState} {i : Nat} (hwf : WF s) :
    WF { s with connections := removeFirstConnById s.connections i } := by
  obtain ⟨h1, h2, h3, h4⟩ := hwf
  exact ⟨fun c hc => h1 c (mem_of_mem_removeFirstConnById hc),
    h2.sublist (removeFirstConnById_sublist _ _),
    fun conn hconn => h3 conn (mem_of_mem_removeFirstConnById hconn),
    h4⟩

/-- Setting the alive flag of one record preserves the invariant. -/
theorem wf_mapAlive {s : SMState} {i : Nat} {b : Bool} (hwf : WF s) :
    WF { s with connections := s.connections.map (fun c =>
      if c.id == i then { c with isAlive := b } else c) } := by
  obtain ⟨h1, h2, h3, h4⟩ := hwf
  have hid : ∀ c : Conn,
      (if c.id == i then { c with isAlive := b } else c).id = c.id := by
    intro c
    split <;> rfl
  have hcid : ∀ c : Conn,
      (if c.id == i then { c with isAlive := b } else c).clientId = c.clientId := by
    intro c
    split <;> rfl
  refine ⟨?_, ?_, ?_, h4⟩
  · intro c hc
    obtain ⟨a, ha, rfl⟩ := List.mem_map.mp hc
    rw [hid]
    exact h1 a ha
  · rw [List.pairwise_map]
    refine h2.imp ?_
    intro a b hab
    rw [hid, hid]
    exact hab
  · intro conn hconn
    obtain ⟨a, ha, rfl⟩ := List.mem_map.mp hconn
    obtain ⟨cl, hclm, hclid, hclconn⟩ := h3 a ha
    refine ⟨cl, hclm, ?_, ?_⟩
    · rw [hcid]
      exact hclid
    · rw [hid]
      exact hclconn

/-- Provisioning a client preserves the invariant. -/
theorem wf_provision {s : SMState} {cid : String} (hwf : WF s) :
    WF (provisionClient s cid) := by
  obtain ⟨h1, h2, h3, h4⟩ := hwf
  unfold provisionClient
  cases hf : s.clients.find? (fun c => c.id == cid) with
  | some _ => exact ⟨h1, h2, h3, h4⟩
  | none =>
    have hnc : ∀ c ∈ s.clients, c.id ≠ cid := by
      intro c hc
      have := List.find?_eq_none.mp hf c hc
      simpa using this
    refine ⟨h1, h2, ?_, ?_⟩
    · intro conn hconn
      obtain ⟨cl, hclm, hx, hy⟩ := h3 conn hconn
      exact ⟨cl, List.mem_append.mpr (Or.inl hclm), hx, hy⟩
    · intro c1 hm1 c2 hm2 heq
      rcases List.mem_append.mp hm1 with hm1' | hm1' <;>
        rcases List.mem_append.mp hm2 with hm2' | hm2'
      · exact h4 c1 hm1' c2 hm2' heq
      · rw [List.mem_singleton.mp hm2'] at heq
        exact absurd heq (hnc c1 hm1')
      · rw [List.mem_singleton.mp hm1'] at heq
        exact absurd heq.symm (hnc c2 hm2')
      · rw [List.mem_singleton.mp hm1', List.mem_singleton.mp hm2']

/-- The post-authentication connect step preserves the invariant. -/
theorem wf_wsConnectAuthed {s : SMState} {cid : String} {client : Client}
    (hwf : WF s) (hclm : client ∈ s.clients) (hclid : client.id = cid) :
    WF (wsConnectAuthed s cid client) := by
  have h2 := hwf.2.1
  have h3 := hwf.2.2.1
  have h4 := hwf.2.2.2
  unfold wsConnectAuthed
  cases hcc : client.connectionId with
  | none =>
    dsimp only
    apply wf_acceptConnection hwf ⟨client, hclm, hclid⟩
    intro conn hconn hcideq
    obtain ⟨cl2, hcl2m, hcl2id, hcl2conn⟩ := h3 conn hconn
    have hc2 : cl2 = client := h4 cl2 hcl2m client hclm (by rw [hcl2id, hcideq, hclid])
    rw [hc2, hcc] at hcl2conn
    exact Option.noConfusion hcl2conn
  | some oldId =>
    dsimp only
    cases hfo : s.connections.find? (fun o => o.id == oldId) with
    | none =>
      dsimp only
      apply wf_acceptConnection hwf ⟨client, hclm, hclid⟩
      intro conn hconn hcideq
      obtain ⟨cl2, hcl2m, hcl2id, hcl2conn⟩ := h3 conn hconn
      have hc2 : cl2 = client := h4 cl2 hcl2m client hclm (by rw [hcl2id, hcideq, hclid])
      rw [hc2, hcc] at hcl2conn
      have hconnid : conn.id = oldId := (Option.some.inj hcl2conn).symm
      have := List.find?_eq_none.mp hfo conn hconn
      exact this (by simp [hconnid])
    | some c =>
      dsimp only
      by_cases hal : c.isAlive = true
      · rw [if_pos hal]
        exact hwf
      · rw [if_neg hal]
        apply wf_acceptConnection (wf_remove hwf) ⟨client, hclm, hclid⟩
        intro conn hconn hcideq
        have hconn0 : conn ∈ s.connections := mem_of_mem_removeFirstConnById hconn
        obtain ⟨cl2, hcl2m, hcl2id, hcl2conn⟩ := h3 conn hconn0
        have hc2 : cl2 = client := h4 cl2 hcl2m client hclm (by rw [hcl2id, hcideq, hclid])
        rw [hc2, hcc] at hcl2conn
        have hconnid : conn.id = oldId := (Option.some.inj hcl2conn).symm
        exact removeFirstConnById_id_ne h2 conn hconn hconnid

/-- Every session-manager event preserves the invariant. -/
theorem wf_step {s : SMState} (hwf : WF s) (e : SMEvent) : WF (step s e) := by
  cases e with
  | provision cid => exact wf_provision hwf
  | wsConnect cid ok =>
    cases ok with
    | false => exact hwf
    | true =>
      show WF (ep_wsConnect s cid true)
      cases hfc : s.clients.find? (fun c => c.id == cid) with
      | none => simpa [ep_wsConnect, hfc] using hwf
      | some client =>
        have hclm := List.mem_of_find?_eq_some hfc
        have hclid : client.id = cid := by simpa using List.find?_some hfc
        simpa [ep_wsConnect, hfc] using wf_wsConnectAuthed hwf hclm hclid
  | wsClose i => exact wf_remove hwf
  | hbTick i => exact wf_mapAlive hwf
  | wsPong i => exact wf_mapAlive hwf

/-- The invariant holds in the initial state. -/
theorem wf_init (serverId : String) : WF (initState serverId) :=
  ⟨by simp [initState], List.Pairwise.nil, by simp [initState], by simp [initState]⟩

/-- The invariant holds in every reachable state. -/
theorem wf_foldl :
    ∀ (events : List SMEvent) (s : SMState), WF s → WF (events.foldl step s) := by
  intro events
  induction events with
  | nil =>
    intro s h
    exact h
  | cons e rest ih =>
    intro s h
    exact ih _ (wf_step h e)

/-- From the invariant: at most one connection record per client is alive
(at most one exists at all). -/
theorem countP_live_le_one {s : SMState} (hwf : WF s) (cid : String) :
    s.connections.countP (fun c => c.clientId == cid && c.isAlive) ≤ 1 := by
  obtain ⟨h1, h2, h3, h4⟩ := hwf
  apply countP_le_one_of_unique_id h2
  intro c1 hm1 c2 hm2 hp1 hp2
  have hc1 : c1.clientId = cid := by
    have := ((Bool.and_eq_true _ _).mp hp1).1
    simpa using this
  have hc2 : c2.clientId = cid := by
    have := ((Bool.and_eq_true _ _).mp hp2).1
    simpa using this
  obtain ⟨cl1, e1, f1, g1⟩ := h3 c1 hm1
  obtain ⟨cl2, e2, f2, g2⟩ := h3 c2 hm2
  have hcl : cl1 = cl2 := h4 cl1 e1 cl2 e2 (by rw [f1, f2, hc1, hc2])
  rw [hcl] at g1
  exact Option.some.inj (g1.symm.trans g2)

/-- C4: (1) in every state of the session manager reachable from the
initial state, at most one connection record per client id has
`isAlive = true` (in fact at most one exists at all); (2) in any state
satisfying the structural invariant, an authenticated connection for a
client whose existing connection is still alive leaves the state unchanged
(the new connection is closed without being accepted); and (3) a stale
(non-alive) existing connection record for the client is removed by the
accepting connect (it is not in the resulting connection list). -/
theorem c4_at_most_one_live_session :
    (∀ (serverId : String) (events : List SMEvent) (cid : String),
      (run serverId events).connections.countP
        (fun c => c.clientId == cid && c.isAlive) ≤ 1) ∧
    (∀ (s : SMState) (cid : String), WF s →
      (∃ conn ∈ s.connections, conn.clientId = cid ∧ conn.isAlive = true) →
      ep_wsConnect s cid true = s) ∧
    (∀ (s : SMState) (cid : String) (conn : Conn), WF s →
      conn ∈ s.connections → conn.clientId = cid → conn.isAlive = false →
      conn ∉ (ep_wsConnect s cid true).connections) := by
  refine ⟨?_, ?_, ?_⟩
  · intro serverId events cid
    exact countP_live_le_one (wf_foldl events _ (wf_init serverId)) cid
  · intro s cid hwf hex
    obtain ⟨conn, hmem, hcid, halive⟩ := hex
    obtain ⟨h1, h2, h3, h4⟩ := hwf
    obtain ⟨cl, hclm, hclid, hclconn⟩ := h3 conn hmem
    cases hfc : s.clients.find? (fun c => c.id == cid) with
    | none =>
      have hcl2 : (cl.id == cid) = true := by simp [hclid, hcid]
      exact absurd hcl2 (List.find?_eq_none.mp hfc cl hclm)
    | some client =>
      have hclientm := List.mem_of_find?_eq_some hfc
      have hclientid : client.id = cid := by simpa using List.find?_some hfc
      have hcl_eq : client = cl :=
        h4 client hclientm cl hclm (by rw [hclientid, hclid, hcid])
      have hcc : client.connectionId = some conn.id := by
        rw [hcl_eq]
        exact hclconn
      have hfo : s.connections.find? (fun o => o.id == conn.id) = some conn := by
        cases hf2 : s.connections.find? (fun o => o.id == conn.id) with
        | none =>
          exact absurd (by simp : (conn.id == conn.id) = true)
            (List.find?_eq_none.mp hf2 conn hmem)
        | some c' =>
          have hc'm := List.mem_of_find?_eq_some hf2
          have hc'id : c'.id = conn.id := by simpa using List.find?_some hf2
          rw [eq_of_pairwise_ne_id h2 hc'm hmem hc'id]
      simp [ep_wsConnect, hfc, wsConnectAuthed, hcc, hfo, halive]
  · intro s cid conn hwf hmem hcid hdead
    obtain ⟨h1, h2, h3, h4⟩ := hwf
    obtain ⟨cl, hclm, hclid, hclconn⟩ := h3 conn hmem
    cases hfc : s.clients.find? (fun c => c.id == cid) with
    | none =>
      have hcl2 : (cl.id == cid) = true := by simp [hclid, hcid]
      exact absurd hcl2 (List.find?_eq_none.mp hfc cl hclm)
    | some client =>
      have hclientm := List.mem_of_find?_eq_some hfc
      have hclientid : client.id = cid := by simpa using List.find?_some hfc
      have hcl_eq : client = cl :=
        h4 client hclientm cl hclm (by rw [hclientid, hclid, hcid])
      have hcc : client.connectionId = some conn.id := by
        rw [hcl_eq]
        exact hclconn
      have hfo : s.connections.find? (fun o => o.id == conn.id) = some conn := by
        cases hf2 : s.connections.find? (fun o => o.id == conn.id) with
        | none =>
          exact absurd (by simp : (conn.id == conn.id) = true)
            (List.find?_eq_none.mp hf2 conn hmem)
        | some c' =>
          have hc'm := List.mem_of_find?_eq_some hf2
          have hc'id : c'.id = conn.id := by simpa using List.find?_some hf2
          rw [eq_of_pairwise_ne_id h2 hc'm hmem hc'id]
      have hred : ep_wsConnect s cid true = acceptConnection
          { s with connections := removeFirstConnById s.connections conn.id } cid := by
        simp [ep_wsConnect, hfc, wsConnectAuthed, hcc, hfo, hdead]
      rw [hred]
      intro habs
      simp only [acceptConnection] at habs
      rcases List.mem_append.mp habs with habs' | habs'
      · exact removeFirstConnById_id_ne h2 conn habs' rfl
      · have hconnid := congrArg Conn.id (List.mem_singleton.mp habs')
        have hlt := h1 conn hmem
        rw [hconnid] at hlt
        exact absurd hlt (lt_irrefl _)

/-- Witness for C4: a provision-then-connect run, a rejected second connect
while the first is alive, and removal of a stale record on reconnect. -/
theorem c4_at_most_one_live_session_witness :
    ((run "srv" [.provision "c1", .wsConnect "c1" true]).connections.countP
        (fun c => c.clientId == "c1" && c.isAlive) ≤ 1) ∧
    (ep_wsConnect ⟨[⟨0, "c1", true, true, "srv"⟩], [⟨"c1", some 0⟩], 1, "srv"⟩
        "c1" true
      = ⟨[⟨0, "c1", true, true, "srv"⟩], [⟨"c1", some 0⟩], 1, "srv"⟩) ∧
    ((⟨0, "c1", false, true, "srv"⟩ : Conn) ∉
      (ep_wsConnect ⟨[⟨0, "c1", false, true, "srv"⟩], [⟨"c1", some 0⟩], 1, "srv"⟩
        "c1" true).connections) :=
  ⟨c4_at_most_one_live_session.1 "srv" [.provision "c1", .wsConnect "c1" true] "c1",
   c4_at_most_one_live_session.2.1
     ⟨[⟨0, "c1", true, true, "srv"⟩], [⟨"c1", some 0⟩], 1, "srv"⟩ "c1"
     ⟨by simp, by simp, by simp, by simp⟩
     ⟨⟨0, "c1", true, true, "srv"⟩, by simp, rfl, rfl⟩,
   c4_at_most_one_live_session.2.2
     ⟨[⟨0, "c1", false, true, "srv"⟩], [⟨"c1", some 0⟩], 1, "srv"⟩ "c1"
     ⟨0, "c1", false, true, "srv"⟩
     ⟨by simp, by simp, by simp, by simp⟩
     (by simp) rfl rfl⟩

/-- C5 (counterexample).  In the state `exampleSendState` the single
connection is alive and open but belongs to server `serverB`, not to this
server (`serverA`); `send` nevertheless succeeds — there is no `wrongServer`
check — and the string message `"hi"` is written as the JSON serialization
`"\"hi\""`, not verbatim, because the `'string'` case of the switch falls
through to `default`. -/
theorem c5_counterexample_send :
    (send exampleSendState 0 (.jsStr "hi") = (.successSend, some "\"hi\"")) ∧
    (exampleSendState.connections.find? (fun o => o.id == 0) = some exampleConn) ∧
    (exampleConn.serverId ≠ exampleSendState.serverId) ∧
    (some "\"hi\"" ≠ some "hi") :=
  ⟨rfl, rfl, by decide, by decide⟩

/-- C5 (amended): `send(sessionId, message)` fails with the
no-such-connection result when no record with that id exists, fails with the
closed result when the record has `!isAlive || !open`, and otherwise writes
`JSON.stringify(message)` to the socket — string messages included (the
string case falls through to the default case), and with no check of the
record's server instance id. -/
theorem c5_send_behavior (s : SMState) (connectionId : Nat)
    (message : JsMessage) :
    (s.connections.find? (fun o => o.id == connectionId) = none →
      send s connectionId message = (.failedSend "No such connection.", none)) ∧
    (∀ r, s.connections.find? (fun o => o.id == connectionId) = some r →
      (!r.isAlive || !r.isOpen) = true →
      send s connectionId message
        = (.failedSend "Connection closed or client not live.", none)) ∧
    (∀ r, s.connections.find? (fun o => o.id == connectionId) = some r →
      r.isAlive = true → r.isOpen = true →
      send s connectionId message = (.successSend, some (JSONStringify message))) := by
  refine ⟨?_, ?_, ?_⟩
  · intro h
    simp [send, h]
  · intro r h hc
    simp [send, h, hc]
  · intro r h ha ho
    simp [send, h, ha, ho]

/-- Witness for C5 at concrete states: an unknown id, a connection that is
not alive, and an alive open connection. -/
theorem c5_send_behavior_witness :
    (send exampleSendState 99 (.jsObj "x") = (.failedSend "No such connection.", none)) ∧
    (send ⟨[⟨0, "c1", false, true, "serverA"⟩], [], 1, "serverA"⟩ 0 (.jsObj "x")
      = (.failedSend "Connection closed or client not live.", none)) ∧
    (send exampleSendState 0 (.jsObj "x") = (.successSend, some "x")) :=
  ⟨(c5_send_behavior exampleSendState 99 (.jsObj "x")).1 rfl,
   (c5_send_behavior ⟨[⟨0, "c1", false, true, "serverA"⟩], [], 1, "serverA"⟩ 0
      (.jsObj "x")).2.1 ⟨0, "c1", false, true, "serverA"⟩ rfl rfl,
   (c5_send_behavior exampleSendState 0 (.jsObj "x")).2.2 exampleConn rfl rfl rfl⟩

/-- C7: every frame in one of the error classes — un-parseable JSON, missing
or falsy `type`, a `type` not matching the provider regex, an unknown
provider, an unknown message suffix, or a handler that throws — results only
in a single log line; the session record is untouched and the session
manager does not close the socket. -/
theorem c7_error_frames_nonfatal (providers : String → Option Provider)
    (frame : Frame) (record : Conn)
    (herr : errorFrame providers frame record = true) :
    ((ws_onMessage providers frame record).record = record) ∧
    ((ws_onMessage providers frame record).closedSocket = false) ∧
    ((ws_onMessage providers frame record).logs.length = 1) := by
  cases frame with
  | badJson => exact ⟨rfl, rfl, rfl⟩
  | noTypeField => exact ⟨rfl, rfl, rfl⟩
  | typed t b =>
    by_cases ht : (t == "") = true
    · simp [ws_onMessage, ht]
    · have ht' : (t == "") = false := by
        revert ht
        cases t == "" <;> simp
      cases hm : matchTypeRegex t with
      | none => simp [ws_onMessage, ht', hm]
      | some pm =>
        obtain ⟨prov, msgName⟩ := pm
        cases hp : providers prov with
        | none => simp [ws_onMessage, ht', hm, hp]
        | some p =>
          cases hh : p.messages msgName with
          | none => simp [ws_onMessage, ht', hm, hp, hh]
          | some h =>
            cases hr : h b record with
            | handled nr =>
              simp [errorFrame, ht', hm, hp, hh, hr] at herr
            | threw => simp [ws_onMessage, ht', hm, hp, hh, hr]

/-- Witness for C7 at a concrete error frame (un-parseable JSON) and
session record. -/
theorem c7_error_frames_nonfatal_witness :
    (errorFrame (fun _ => none) Frame.badJson exampleConn = true) ∧
    ((ws_onMessage (fun _ => none) Frame.badJson exampleConn).record = exampleConn) ∧
    ((ws_onMessage (fun _ => none) Frame.badJson exampleConn).closedSocket = false) ∧
    ((ws_onMessage (fun _ => none) Frame.badJson exampleConn).logs.length = 1) :=
  ⟨rfl,
   (c7_error_frames_nonfatal (fun _ => none) Frame.badJson exampleConn rfl).1,
   (c7_error_frames_nonfatal (fun _ => none) Frame.badJson exampleConn rfl).2.1,
   (c7_error_frames_nonfatal (fun _ => none) Frame.badJson exampleConn rfl).2.2⟩

end WsCore

namespace Server

/-- C6: calling `stop` in any state other than READY changes nothing (the
whole server state — state, instance record and shutdown log — is returned
unchanged), and over any sequence of `stop` calls in one lifetime (a
lifetime starts with an empty shutdown log) each loaded component's
`onShutdown` hook runs at most once. -/
theorem c6_stop_noop_and_shutdown_once (components : List String)
    (s0 : MorriganState) (calls : List StopCall) (name : String)
    (hstart : s0.shutdownLog = []) (hcomp : components.count name ≤ 1) :
    (∀ (s : MorriganState) (reason : String) (now : Nat),
      s.state ≠ SState.ready → stop components s reason now = s) ∧
    ((stopSeq components s0 calls).shutdownLog.count name ≤ 1) := by
  constructor
  · intro s reason now h
    simp [stop, h]
  · have key : ∀ (cs : List StopCall) (s : MorriganState),
        s.shutdownLog.count name ≤ 1 →
        (s.state = SState.ready → s.shutdownLog.count name = 0) →
        (stopSeq components s cs).shutdownLog.count name ≤ 1 := by
      intro cs
      induction cs with
      | nil =>
        intro s h1 _
        exact h1
      | cons c rest ih =>
        intro s h1 h2
        show (stopSeq components (stop components s c.reason c.time)
          rest).shutdownLog.count name ≤ 1
        by_cases hs : s.state = SState.ready
        · have hstop : stop components s c.reason c.time =
              { state := SState.stopped,
                serverRecord := s.serverRecord.map (fun _ =>
                  ⟨false, some c.reason, c.time⟩),
                shutdownLog := s.shutdownLog ++ components } := by
            simp [stop, hs]
          apply ih
          · rw [hstop]
            simp only [List.count_append]
            rw [h2 hs]
            simpa using hcomp
          · rw [hstop]
            intro habs
            exact absurd habs (by simp)
        · rw [show stop components s c.reason c.time = s by simp [stop, hs]]
          exact ih s h1 h2
    apply key calls s0
    · rw [hstart]
      simp
    · intro _
      rw [hstart]
      simp

/-- Witness for C6: a `stop` from STOPPED changes nothing, and two
successive `stop` calls from READY run the single component's hook at most
once. -/
theorem c6_stop_noop_and_shutdown_once_witness :
    (stop ["compA"] ⟨SState.stopped, none, []⟩ "SIGTERM" 3
      = ⟨SState.stopped, none, []⟩) ∧
    ((stopSeq ["compA"] ⟨SState.ready, some ⟨true, none, 0⟩, []⟩
        [⟨"SIGTERM", 1⟩, ⟨"SIGTERM", 2⟩]).shutdownLog.count "compA" ≤ 1) :=
  ⟨(c6_stop_noop_and_shutdown_once ["compA"]
      ⟨SState.ready, some ⟨true, none, 0⟩, []⟩
      [⟨"SIGTERM", 1⟩, ⟨"SIGTERM", 2⟩] "compA" rfl (by simp)).1
      ⟨SState.stopped, none, []⟩ "SIGTERM" 3 (by simp),
   (c6_stop_noop_and_shutdown_once ["compA"]
      ⟨SState.ready, some ⟨true, none, 0⟩, []⟩
      [⟨"SIGTERM", 1⟩, ⟨"SIGTERM", 2⟩] "compA" rfl (by simp)).2⟩

end Server

end Morrigan
